import Mathlib

/-!
Shallow embedding of the `virgil` speech-capture backend (Rust) and proofs
about it.  Rust strings that only ever carry human-readable transcripts are
modelled as `List Char`; byte indices coincide with character indices on the
ASCII inputs used in the concrete tests.  Buffers crossing the FFI boundary
are modelled as `List Nat` byte lists.  `f32` audio samples are modelled by
their 32-bit patterns (`Nat`), since no arithmetic is done on them by the
code under verification except in the downmixer, where samples are modelled
as rationals (exact arithmetic in place of IEEE rounding).
-/

namespace Virgil

/-- Rust `str::to_lowercase`, modelled per-character (`Char.toLower`);
faithful on ASCII, where Rust's Unicode lowercasing agrees. -/
def to_lowercase (s : List Char) : List Char := s.map Char.toLower

/-- Rust `str::contains(needle)`: substring test, modelled as
"some tail of the haystack has the needle as a prefix". -/
def str_contains (hay needle : List Char) : Bool :=
  hay.tails.any (fun t => needle.isPrefixOf t)

/-- Worker for `str_find`: index of the first tail of `hay` that starts
with `needle`, offset by `i`. -/
def str_find_from (i : Nat) (hay needle : List Char) : Option Nat :=
  if needle.isPrefixOf hay then some i
  else
    match hay with
    | [] => none
    | _ :: t => str_find_from (i + 1) t needle

/-- Rust `str::find(needle)`: offset of the first occurrence of `needle`
in `hay` (character offset; equals Rust's byte offset on ASCII). -/
def str_find (hay needle : List Char) : Option Nat :=
  str_find_from 0 hay needle

-- ==================================================================
--  Wake-word detection (src/native/src/utils.rs, detect_wake_words)
-- ==================================================================

/-- The wake-word predicate tested by both detectors: the lowercased wake
word occurs in the lowercased transcript. -/
def wake_word_matches (transcript_lower : List Char) (word : List Char) : Bool :=
  str_contains transcript_lower (to_lowercase word)

/-- `detect_wake_words` from `src/native/src/utils.rs` (lines 100-117),
with the external inference call abstracted: `transcript` stands for the
string returned by `transcribe(model, params, audio_data)`.  The source
lowercases the transcript once, then scans the wake words in declaration
order, returning `true` at the first word whose lowercase form is contained
in the transcript, and `false` if the scan is exhausted.  The `for` loop
over the wake words is the recursion `detect_wake_words_scan`. -/
def detect_wake_words_scan (lower : List Char) : List (List Char) → Bool
  | [] => false
  | word :: rest =>
    if str_contains lower (to_lowercase word) then true
    else detect_wake_words_scan lower rest

def detect_wake_words (transcript : List Char) (wake_words : List (List Char)) : Bool :=
  detect_wake_words_scan (to_lowercase transcript) wake_words

/-- `WakeWordDetection` record from `src/native/legacy/state.rs`
(lines 37-48). -/
structure WakeWordDetection where
  detected : Bool
  start_idx : Nat
  end_idx : Nat
deriving DecidableEq, Repr

/-- `detect_wake_words` from `src/native/legacy/state.rs` (lines 54-77),
with the model call abstracted: `inferred` is what `run_model` returns, and
`audio_nonempty` records whether `audio_data` was non-empty.  On the first
phrase whose lowercase form is found, the source returns
`detected = true`, `start_idx = idx` (offset of the match) and
`end_idx = phrase.len()` (the phrase's own length, not the match end).
The `for` loop over the phrases is this recursion; the wrapper
`detect_wake_words_legacy` below adds the empty-audio guard. -/
def detect_wake_words_legacy_scan (transcript : List Char) :
    List (List Char) → WakeWordDetection
  | [] => ⟨false, 0, 0⟩
  | phrase :: rest =>
    match str_find transcript (to_lowercase phrase) with
    | some idx => ⟨true, idx, phrase.length⟩
    | none => detect_wake_words_legacy_scan transcript rest

def detect_wake_words_legacy (wake_words : List (List Char)) (audio_nonempty : Bool)
    (inferred : List Char) : WakeWordDetection :=
  if audio_nonempty then
    detect_wake_words_legacy_scan (to_lowercase inferred) wake_words
  else ⟨false, 0, 0⟩

-- ==================================================================
--  Per-window transcription paths (src/native/src/api.rs and
--  src/native/src/utils.rs)
-- ==================================================================

/-- `transcribe_audio_data` from `src/native/src/api.rs` (lines 239-258),
with the inference double abstracted: `inferred` is the transcript the
model produces for this window.  The source runs wake-word detection, logs
on success, and then transcribes and returns the text unconditionally
(its own FIXME: "Move into wake_word_detected check").  The first component
is the detection result, the second the returned transcript. -/
def transcribe_audio_data (inferred : List Char) (wake_words : List (List Char)) :
    Bool × List Char :=
  (detect_wake_words inferred wake_words, inferred)

/-- The per-window body of `process` in `src/native/src/api.rs`
(lines 214-223): the text returned by `transcribe_audio_data` is sent to
the host via `send_text_to_dart` unconditionally.  `some t` means a
transcript `t` is delivered to the host for this window. -/
def process_window (inferred : List Char) (wake_words : List (List Char)) :
    Option (List Char) :=
  some (transcribe_audio_data inferred wake_words).2

/-- The per-window callback of `listen_low_power_mode` in
`src/native/src/utils.rs` (lines 199-240): only when `detect_wake_words`
returns `true` is the window transcribed and the text sent to the host. -/
def low_power_window (inferred : List Char) (wake_words : List (List Char)) :
    Option (List Char) :=
  if detect_wake_words inferred wake_words then some inferred else none

-- ==================================================================
--  Realtime input callback (src/native/src/utils.rs, lines 142-149)
-- ==================================================================

/-- Result of `tokio::sync::mpsc::Sender::try_send` for one frame. -/
inductive TrySendResult where
  | ok
  | full
  | closed
deriving DecidableEq, Repr

/-- Outcome of one invocation of the realtime input callback. -/
inductive CallbackOutcome where
  /-- The callback returned normally; `sent` tells whether the frame
  entered the channel. -/
  | returned (sent : Bool)
  /-- The callback panicked. -/
  | panicked
deriving DecidableEq, Repr

/-- `input_stream_listener` from `src/native/src/utils.rs` (lines 142-149):
`sender.try_send(data.into()).map_err(|e| error!(..)).unwrap()`.
`try_send` never blocks; on `Ok` the callback returns.  On `Err` (channel
full or closed) the `map_err` closure logs the error and maps it to `()`,
and the trailing `.unwrap()` then panics on the `Err` value. -/
def input_stream_listener (channel : TrySendResult) (_data : List Nat) :
    CallbackOutcome :=
  match channel with
  | .ok => .returned true
  | .full => .panicked
  | .closed => .panicked

-- ==================================================================
--  Downmixer (src/exaple.rs, stereo_to_mono, lines 102-111)
-- ==================================================================

/-- Rust `slice::chunks` with chunk size `m + 1` (the size is positive by
construction; `chunks(0)` panics in Rust and never occurs here). -/
def chunks_pos (m : Nat) (l : List ℚ) : List (List ℚ) :=
  match l with
  | [] => []
  | x :: xs => ((x :: xs).take (m + 1)) :: chunks_pos m ((x :: xs).drop (m + 1))
termination_by l.length
decreasing_by
  simp only [List.drop_succ_cons, List.length_cons, List.length_drop]
  omega

/-- `stereo_to_mono` from `src/exaple.rs` (lines 102-111): mono passes
through; otherwise each `channels`-sized chunk is summed (`Iterator::sum`,
a left fold from 0) and divided by the channel count.  Samples are modelled
as exact rationals. -/
def stereo_to_mono (samples : List ℚ) (channels : Nat) : List ℚ :=
  if channels = 1 then samples
  else
    (chunks_pos (channels - 1) samples).map
      (fun frame => frame.foldl (· + ·) 0 / (channels : ℚ))

-- ==================================================================
--  Sample accumulation (src/native/src/api.rs `process`, lines 179-236,
--  and the identical loop in src/native/src/utils.rs `process_audio`,
--  lines 249-305)
-- ==================================================================

/-- `desired_num_samples`: the window size,
`(listen_duration_ms / 1000) * EXPECTED_SAMPLE_RATE + 200` with
`EXPECTED_SAMPLE_RATE = 16_000`. -/
def desired_num_samples (listen_duration_ms : Nat) : Nat :=
  listen_duration_ms / 1000 * 16000 + 200

/-- One iteration of the accumulation loop on an incoming chunk
(`src/native/src/utils.rs` lines 267-296, identical in
`src/native/src/api.rs` lines 192-231).  The state is the
`accumulated_audio` buffer; the result is `none` when the Rust code
panics (the `usize` subtraction `samples_to_add - extra` underflows),
otherwise the new buffer together with the list of windows passed to the
callback during this iteration.  On the emitting branch the source
extends the buffer to exactly `desired` samples but then invokes the
callback on `&audio_data` — the raw incoming chunk — and afterwards
clears the buffer, keeping only `audio_data[end_idx..]`. -/
def process_audio_step (desired : Nat) (acc chunk : List Nat) :
    Option (List Nat × List (List Nat)) :=
  let num := acc.length + chunk.length
  if num < desired then some (acc ++ chunk, [])
  else
    let extra := num - desired
    if chunk.length < extra then none
    else
      let end_idx := chunk.length - extra
      -- accumulated_audio now holds `acc ++ chunk.take end_idx`
      -- (exactly `desired` samples); the callback receives `chunk`,
      -- then the buffer is cleared and refilled with `chunk.drop end_idx`.
      some (chunk.drop end_idx, [chunk])

/-- The accumulation loop run over a finite sequence of incoming chunks,
starting from an empty buffer: final buffer (the retained remainder) and
all windows emitted to the callback, in order; `none` if any step
panics. -/
def process_audio_run (desired : Nat) (chunks : List (List Nat)) :
    Option (List Nat × List (List Nat)) :=
  chunks.foldl
    (fun st chunk =>
      match st with
      | none => none
      | some (acc, emitted) =>
        match process_audio_step desired acc chunk with
        | none => none
        | some (acc2, newly) => some (acc2, emitted ++ newly))
    (some ([], []))

-- ==================================================================
--  Byte-level codec: bincode, standard configuration with fixed-integer
--  encoding (the configuration passed in src/native/src/messages.rs to
--  `encode_into_slice` and `decode_from_slice`).  In this format a
--  `u64`/`usize` is 8 little-endian bytes, a `bool` one byte (0 or 1),
--  an `f32` its 4 raw little-endian bytes, a `String` its byte length as
--  u64 followed by its UTF-8 bytes, and a `Vec<T>` its length as u64
--  followed by the elements; a struct is its fields in order with no tag.
-- ==================================================================

/-- Byte buffers crossing the FFI boundary. -/
abbrev Bytes := List Nat

/-- UTF-8 bytes of an ASCII string literal (used for the response texts
built with `format!`). -/
def ascii_bytes (s : String) : Bytes := s.toList.map Char.toNat

/-- Little-endian bytes of `n`, `k` bytes wide (truncating at `256 ^ k`). -/
def le_bytes (k n : Nat) : Bytes :=
  match k with
  | 0 => []
  | k + 1 => n % 256 :: le_bytes k (n / 256)

/-- Value of a little-endian byte list. -/
def le_val (bs : Bytes) : Nat :=
  bs.foldr (fun b acc => b + 256 * acc) 0

/-- Read `k` little-endian bytes as an unsigned integer, returning the
value and the remaining bytes; fails (like bincode's `UnexpectedEnd`)
when fewer than `k` bytes remain. -/
def dec_uint (k : Nat) (bs : Bytes) : Option (Nat × Bytes) :=
  if k ≤ bs.length then some (le_val (bs.take k), bs.drop k) else none

/-- Encode a `u64` (8 little-endian bytes). -/
def enc_u64 (n : Nat) : Bytes := le_bytes 8 n

/-- Decode a `u64`. -/
def dec_u64 (bs : Bytes) : Option (Nat × Bytes) := dec_uint 8 bs

/-- Encode an `f32` sample, given by its 32-bit pattern. -/
def enc_f32 (n : Nat) : Bytes := le_bytes 4 n

/-- Encode a `bool` (one byte). -/
def enc_bool (b : Bool) : Bytes := [if b then 1 else 0]

/-- Decode a `bool`: bincode accepts exactly the bytes 0 and 1. -/
def dec_bool (bs : Bytes) : Option (Bool × Bytes) :=
  match bs with
  | 0 :: rest => some (false, rest)
  | 1 :: rest => some (true, rest)
  | _ => none

/-- Encode a `String` (modelled by its UTF-8 byte list): u64 byte length
followed by the bytes. -/
def enc_string (s : Bytes) : Bytes := enc_u64 s.length ++ s

/-- Decode a `String`: read the u64 length, then that many bytes.
(bincode additionally validates UTF-8, which cannot fail on buffers
produced by `enc_string` from a Rust `String`.) -/
def dec_string (bs : Bytes) : Option (Bytes × Bytes) :=
  match dec_u64 bs with
  | none => none
  | some (n, rest) =>
    if n ≤ rest.length then some (rest.take n, rest.drop n) else none

/-- Encode a `Vec<T>`: u64 element count followed by the elements. -/
def enc_vec (encElem : α → Bytes) (v : List α) : Bytes :=
  enc_u64 v.length ++ (v.map encElem).flatten

/-- Decode exactly `n` consecutive elements. -/
def dec_elems (decElem : Bytes → Option (α × Bytes)) :
    Nat → Bytes → Option (List α × Bytes)
  | 0, bs => some ([], bs)
  | n + 1, bs =>
    match decElem bs with
    | none => none
    | some (x, rest) =>
      match dec_elems decElem n rest with
      | none => none
      | some (xs, rest2) => some (x :: xs, rest2)

/-- Decode a `Vec<T>`: read the u64 count, then that many elements. -/
def dec_vec (decElem : Bytes → Option (α × Bytes)) (bs : Bytes) :
    Option (List α × Bytes) :=
  match dec_u64 bs with
  | none => none
  | some (n, rest) => dec_elems decElem n rest

-- ==================================================================
--  Messages and responses (src/native/src/messages.rs)
-- ==================================================================

/-- The message variants of `src/native/src/messages.rs` (each a separate
newtype struct in the source; the discriminant travels out of band as the
`msg_type` byte).  Strings are UTF-8 byte lists, `f32` samples are 32-bit
patterns. -/
inductive Msg where
  | loadModel (path : Bytes)
  | setWakeWords (words : List Bytes)
  | updateAudioData (samples : List Nat)
  | detectWakeWords
  | transcribe
  | debugMessage (text : Bytes)
deriving DecidableEq, Repr

/-- The `msg_type` discriminant of a message, per `MessageType` and its
`From<u8>` instance (lines 50-62). -/
def Msg.type : Msg → Nat
  | .loadModel _ => 0
  | .setWakeWords _ => 1
  | .updateAudioData _ => 2
  | .detectWakeWords => 3
  | .transcribe => 4
  | .debugMessage _ => 5

/-- bincode encoding of a message (derived `Encode` on the payload
struct). -/
def enc_msg : Msg → Bytes
  | .loadModel path => enc_string path
  | .setWakeWords words => enc_vec enc_string words
  | .updateAudioData samples => enc_vec enc_f32 samples
  | .detectWakeWords => []
  | .transcribe => []
  | .debugMessage text => enc_string text

/-- Decoding of the message payload for a given in-range `msg_type`, as
`send_message_to_rust` does it: types 0, 1, 2 and 5 call `deserialize`
on the incoming buffer; types 3 and 4 read nothing and construct the unit
struct directly.  Returns the value and the bytes consumed past it
(ignored by `decode_from_slice`). -/
def dec_msg (msg_type : Nat) (bs : Bytes) : Option (Msg × Bytes) :=
  match msg_type with
  | 0 => (dec_string bs).map (fun (s, r) => (.loadModel s, r))
  | 1 => (dec_vec dec_string bs).map (fun (ws, r) => (.setWakeWords ws, r))
  | 2 => (dec_vec (dec_uint 4) bs).map (fun (ss, r) => (.updateAudioData ss, r))
  | 3 => some (.detectWakeWords, bs)
  | 4 => some (.transcribe, bs)
  | 5 => (dec_string bs).map (fun (s, r) => (.debugMessage s, r))
  | _ => none

/-- The response variants (`TextResponse`, `WakeWordResponse`,
`ErrorResponse`). -/
inductive Resp where
  | text (s : Bytes)
  | wakeWord (d : WakeWordDetection)
  | error (s : Bytes)
deriving DecidableEq, Repr

/-- `ResponseType ... Into<u8>` (lines 105-113). -/
def Resp.type : Resp → Nat
  | .text _ => 0
  | .wakeWord _ => 1
  | .error _ => 2

/-- bincode encoding of a response; `WakeWordDetection` is
`bool` + `usize` + `usize` (usize encoded as u64). -/
def enc_resp : Resp → Bytes
  | .text s => enc_string s
  | .wakeWord d => enc_bool d.detected ++ enc_u64 d.start_idx ++ enc_u64 d.end_idx
  | .error s => enc_string s

/-- Decoding of a response for a given `resp_type` discriminant. -/
def dec_resp (resp_type : Nat) (bs : Bytes) : Option (Resp × Bytes) :=
  match resp_type with
  | 0 => (dec_string bs).map (fun (s, r) => (.text s, r))
  | 1 =>
    match dec_bool bs with
    | none => none
    | some (b, r1) =>
      match dec_u64 r1 with
      | none => none
      | some (s, r2) =>
        match dec_u64 r2 with
        | none => none
        | some (e, r3) => some (.wakeWord ⟨b, s, e⟩, r3)
  | 2 => (dec_string bs).map (fun (s, r) => (.error s, r))
  | _ => none

/-- `size_of::<String>()` on the 64-bit targets this library is built
for (pointer, capacity, length). -/
def size_of_string : Nat := 24

/-- `size_of::<WakeWordDetection>()` on 64-bit targets: `bool` padded to
alignment 8, plus two `usize`. -/
def size_of_wake_word_detection : Nat := 24

/-- `Response::byte_len` (lines 116-140): `TextResponse`/`ErrorResponse`
return `self.0.len() + size_of::<Self>()`; `WakeWordResponse` returns
`size_of::<WakeWordDetection>() + size_of::<Self>()`, where each
`size_of::<Self>()` equals the size of the single field. -/
def byte_len : Resp → Nat
  | .text s => s.length + size_of_string
  | .wakeWord _ => size_of_wake_word_detection + size_of_wake_word_detection
  | .error s => s.length + size_of_string

/-- `serialize` from `src/native/src/messages.rs` (lines 301-314): a
buffer of `byte_len` zero bytes is allocated, the value is bincode-encoded
into its front, the whole allocation is handed to the host as the returned
pointer, and the number of bytes written is stored in the out-parameter.
Result: (allocated buffer contents, reported written length). -/
def serialize (value : Resp) : Bytes × Nat :=
  let encoded := enc_resp value
  (encoded ++ List.replicate (byte_len value - encoded.length) 0, encoded.length)

-- ==================================================================
--  send_message_to_rust (src/native/src/messages.rs, lines 150-279)
-- ==================================================================

/-- Results of the global-state operations that `send_message_to_rust`
dispatches to (`load_model`, `set_wake_words`, `update_audio_data`,
`detect_wake_words`, `transcribe` in `crate::state`); they wrap the
external whisper model and process-wide mutable state, so the embedding
takes their outcomes as parameters.  Errors carry diagnostic strings. -/
structure StateEnv where
  load_model : Bytes → Except Bytes Unit
  set_wake_words : List Bytes → Except Bytes Unit
  update_audio_data : List Nat → Except Bytes Unit
  detect_wake_words : Except Bytes WakeWordDetection
  transcribe : Except Bytes Bytes

/-- Outcome of one call to `send_message_to_rust`. -/
inductive SendOutcome where
  /-- The input-validation guard returned `null` without touching the
  out-parameters. -/
  | nullReturn
  /-- The process panicked.  `resp_type_written` records a value stored
  into `*resp_type` before the panic (by `rust_error`), if any;
  `resp_len_written` whether `*resp_len` was stored. -/
  | panicked (resp_type_written : Option Nat) (resp_len_written : Bool)
  /-- Normal return: `*resp_type` and `*resp_len` were written and the
  returned pointer holds `buffer`. -/
  | ok (resp_type : Nat) (buffer : Bytes) (written : Nat)
deriving DecidableEq, Repr

/-- Whether the outcome is a panic of the process. -/
def SendOutcome.isPanicked : SendOutcome → Bool
  | .panicked _ _ => true
  | _ => false

/-- The modelled diagnostic string of a bincode decode failure (the
source forwards `e.to_string()`; the exact text is the library's). -/
def decode_err_text : Bytes := ascii_bytes "DeserializeError"

/-- The error path of the source, `.map_err(|e| return rust_error(e,
resp_type, resp_len)).unwrap()`: the closure's `return` only leaves the
closure, so `rust_error` runs (stores `ResponseType::Error` into
`*resp_type`, serializes the error response, stores its length into
`*resp_len`) and the subsequent `.unwrap()` on the `Err` value panics. -/
def rust_error_then_unwrap (_details : Bytes) : SendOutcome :=
  .panicked (some 2) true

/-- Byte 39, the ASCII apostrophe used by the `Debug` response text. -/
def quote_byte : Bytes := [39]

/-- `send_message_to_rust` (lines 150-279).  `msg` is `none` when
`msg_ptr` is null, otherwise the `msg_len` bytes behind the pointer;
`resp_type_null`/`resp_len_null` model null out-parameter pointers.
Control flow per the source: (1) the null guard returns null;
(2) `msg_type.into()` hits `unreachable!` for bytes above 5 and panics
with nothing written; (3) payload decoding failures and state-operation
failures go through `rust_error` and then panic on `.unwrap()`;
(4) otherwise the discriminant is stored, the response serialized and its
buffer returned.  Note the `SetWakeWords` arm stores the `WakeWord`
discriminant (1) while returning a `TextResponse`. -/
def send_message_to_rust (env : StateEnv) (msg_type : Nat) (msg : Option Bytes)
    (resp_type_null resp_len_null : Bool) : SendOutcome :=
  if msg.isNone || resp_type_null || resp_len_null then .nullReturn
  else if 6 ≤ msg_type then .panicked none false
  else
    let bs := msg.getD []
    match dec_msg msg_type bs with
    | none => rust_error_then_unwrap decode_err_text
    | some (message, _) =>
      match message with
      | .loadModel path =>
        match env.load_model path with
        | .error e => rust_error_then_unwrap e
        | .ok () =>
          let resp := Resp.text (ascii_bytes "Model path set to: " ++ path)
          .ok 0 (serialize resp).1 (serialize resp).2
      | .setWakeWords words =>
        match env.set_wake_words words with
        | .error e => rust_error_then_unwrap e
        | .ok () =>
          let joined := (words.intersperse (ascii_bytes ", ")).flatten
          let resp := Resp.text
            (ascii_bytes "Wake words set to: [" ++ joined ++ ascii_bytes "]")
          .ok 1 (serialize resp).1 (serialize resp).2
      | .updateAudioData samples =>
        match env.update_audio_data samples with
        | .error e => rust_error_then_unwrap e
        | .ok () =>
          let resp := Resp.text
            (ascii_bytes ("Audio data updated with " ++ toString samples.length
              ++ " samples"))
          .ok 0 (serialize resp).1 (serialize resp).2
      | .detectWakeWords =>
        match env.detect_wake_words with
        | .error e => rust_error_then_unwrap e
        | .ok d =>
          let resp := Resp.wakeWord d
          .ok 1 (serialize resp).1 (serialize resp).2
      | .transcribe =>
        match env.transcribe with
        | .error e => rust_error_then_unwrap e
        | .ok t =>
          let resp := Resp.text t
          .ok 0 (serialize resp).1 (serialize resp).2
      | .debugMessage text =>
        let resp := Resp.text
          (ascii_bytes "Debug: " ++ quote_byte ++ text ++ quote_byte)
        .ok 0 (serialize resp).1 (serialize resp).2

/-- A trivial environment in which every state operation succeeds. -/
def triv_env : StateEnv where
  load_model _ := .ok ()
  set_wake_words _ := .ok ()
  update_audio_data _ := .ok ()
  detect_wake_words := .ok ⟨false, 0, 0⟩
  transcribe := .ok []

-- ==================================================================
--  Codec lemmas
-- ==================================================================

theorem le_bytes_length (k n : Nat) : (le_bytes k n).length = k := by
  induction k generalizing n with
  | zero => rfl
  | succ k ih => simp [le_bytes, ih]

theorem le_val_le_bytes (k n : Nat) : le_val (le_bytes k n) = n % 256 ^ k := by
  induction k generalizing n with
  | zero => simp [le_bytes, le_val, Nat.mod_one]
  | succ k ih =>
    have hpow : (256 : Nat) ^ (k + 1) = 256 * 256 ^ k := by ring
    simp only [le_bytes, le_val, List.foldr_cons, hpow, Nat.mod_mul]
    have hrec := ih (n / 256)
    simp only [le_val] at hrec
    omega

theorem dec_uint_le_bytes (k n : Nat) (rest : Bytes) :
    dec_uint k (le_bytes k n ++ rest) = some (n % 256 ^ k, rest) := by
  have hlen : (le_bytes k n).length = k := le_bytes_length k n
  simp [dec_uint, List.take_left' hlen, List.drop_left' hlen, le_val_le_bytes,
    Nat.le_add_right_of_le (Nat.le_of_eq hlen.symm)]

theorem dec_u64_enc (n : Nat) (h : n < 2 ^ 64) (rest : Bytes) :
    dec_u64 (enc_u64 n ++ rest) = some (n, rest) := by
  have h' : n < 18446744073709551616 := by
    have e : (2 : Nat) ^ 64 = 18446744073709551616 := by norm_num
    rw [e] at h; exact h
  simp [dec_u64, enc_u64, dec_uint_le_bytes, Nat.mod_eq_of_lt h']

theorem dec_f32_enc (n : Nat) (h : n < 2 ^ 32) (rest : Bytes) :
    dec_uint 4 (enc_f32 n ++ rest) = some (n, rest) := by
  have h' : n < 4294967296 := by
    have e : (2 : Nat) ^ 32 = 4294967296 := by norm_num
    rw [e] at h; exact h
  simp [enc_f32, dec_uint_le_bytes, Nat.mod_eq_of_lt h']

theorem dec_string_enc (s : Bytes) (h : s.length < 2 ^ 64) (rest : Bytes) :
    dec_string (enc_string s ++ rest) = some (s, rest) := by
  simp only [enc_string, List.append_assoc, dec_string, dec_u64_enc s.length h]
  simp [List.take_left, List.drop_left]

theorem dec_bool_enc (b : Bool) (rest : Bytes) :
    dec_bool (enc_bool b ++ rest) = some (b, rest) := by
  cases b <;> simp [enc_bool, dec_bool]

theorem dec_elems_enc {α : Type} (dec : Bytes → Option (α × Bytes)) (enc : α → Bytes)
    (v : List α) (rest : Bytes)
    (h : ∀ x ∈ v, ∀ r : Bytes, dec (enc x ++ r) = some (x, r)) :
    dec_elems dec v.length ((v.map enc).flatten ++ rest) = some (v, rest) := by
  induction v generalizing rest with
  | nil => simp [dec_elems]
  | cons x xs ih =>
    have hx := h x (by simp)
    have hxs : ∀ y ∈ xs, ∀ r : Bytes, dec (enc y ++ r) = some (y, r) :=
      fun y hy r => h y (List.mem_cons_of_mem _ hy) r
    simp only [List.map_cons, List.flatten_cons, List.length_cons, List.append_assoc,
      dec_elems, hx]
    simp [ih rest hxs]

theorem dec_vec_enc {α : Type} (dec : Bytes → Option (α × Bytes)) (enc : α → Bytes)
    (v : List α) (hlen : v.length < 2 ^ 64) (rest : Bytes)
    (h : ∀ x ∈ v, ∀ r : Bytes, dec (enc x ++ r) = some (x, r)) :
    dec_vec dec (enc_vec enc v ++ rest) = some (v, rest) := by
  simp only [enc_vec, List.append_assoc, dec_vec, dec_u64_enc v.length hlen]
  exact dec_elems_enc dec enc v rest h

/-- Size constraints under which a message is representable on the wire:
all lengths fit in `u64` and all `f32` bit patterns in 32 bits (always
true of the actual Rust values). -/
def wf_msg : Msg → Prop
  | .loadModel path => path.length < 2 ^ 64
  | .setWakeWords words => words.length < 2 ^ 64 ∧ ∀ w ∈ words, w.length < 2 ^ 64
  | .updateAudioData samples => samples.length < 2 ^ 64 ∧ ∀ s ∈ samples, s < 2 ^ 32
  | .detectWakeWords => True
  | .transcribe => True
  | .debugMessage text => text.length < 2 ^ 64

instance : DecidablePred wf_msg := by
  intro m; unfold wf_msg; cases m <;> infer_instance

/-- Size constraints under which a response is representable on the
wire. -/
def wf_resp : Resp → Prop
  | .text s => s.length < 2 ^ 64
  | .wakeWord d => d.start_idx < 2 ^ 64 ∧ d.end_idx < 2 ^ 64
  | .error s => s.length < 2 ^ 64

instance : DecidablePred wf_resp := by
  intro r; unfold wf_resp; cases r <;> infer_instance

/-- C3.  For every Message and Response value whose lengths fit the wire
format, decoding the byte buffer produced by encoding it (bincode
standard configuration with fixed-integer encoding) succeeds, consumes
the whole buffer, and yields the original value. -/
theorem roundtrip_codec :
    (∀ m : Msg, wf_msg m → dec_msg m.type (enc_msg m) = some (m, [])) ∧
    (∀ r : Resp, wf_resp r → dec_resp r.type (enc_resp r) = some (r, [])) := by
  constructor
  · intro m hm
    cases m with
    | loadModel path =>
      have := dec_string_enc path hm []
      simpa [Msg.type, enc_msg, dec_msg] using this
    | setWakeWords words =>
      have := dec_vec_enc dec_string enc_string words hm.1 []
        (fun w hw r => dec_string_enc w (hm.2 w hw) r)
      simpa [Msg.type, enc_msg, dec_msg] using this
    | updateAudioData samples =>
      have := dec_vec_enc (dec_uint 4) enc_f32 samples hm.1 []
        (fun s hs r => dec_f32_enc s (hm.2 s hs) r)
      simpa [Msg.type, enc_msg, dec_msg] using this
    | detectWakeWords => simp [Msg.type, enc_msg, dec_msg]
    | transcribe => simp [Msg.type, enc_msg, dec_msg]
    | debugMessage text =>
      have := dec_string_enc text hm []
      simpa [Msg.type, enc_msg, dec_msg] using this
  · intro r hr
    cases r with
    | text s =>
      have := dec_string_enc s hr []
      simpa [Resp.type, enc_resp, dec_resp] using this
    | wakeWord d =>
      have hend : dec_u64 (enc_u64 d.end_idx) = some (d.end_idx, []) := by
        simpa using dec_u64_enc d.end_idx hr.2 []
      simp only [Resp.type, enc_resp, dec_resp, List.append_assoc,
        dec_bool_enc d.detected, dec_u64_enc d.start_idx hr.1, hend]
    | error s =>
      have := dec_string_enc s hr []
      simpa [Resp.type, enc_resp, dec_resp] using this

/-- Witness for C3: the round-trip evaluated on a concrete message and a
concrete response. -/
theorem roundtrip_codec_witness :
    wf_msg (.loadModel (ascii_bytes "model.bin")) ∧
    dec_msg (Msg.loadModel (ascii_bytes "model.bin")).type
      (enc_msg (.loadModel (ascii_bytes "model.bin")))
        = some (.loadModel (ascii_bytes "model.bin"), []) ∧
    wf_resp (.wakeWord ⟨true, 6, 4⟩) ∧
    dec_resp (Resp.wakeWord ⟨true, 6, 4⟩).type
      (enc_resp (.wakeWord ⟨true, 6, 4⟩)) = some (.wakeWord ⟨true, 6, 4⟩, []) :=
  ⟨by decide, roundtrip_codec.1 _ (by decide), by decide,
    roundtrip_codec.2 _ (by decide)⟩

-- ==================================================================
--  Claim theorems (wake words, windows, callback, downmix)
-- ==================================================================

theorem detect_scan_eq_find? (lower : List Char) (ws : List (List Char)) :
    detect_wake_words_scan lower ws
      = (ws.find? (fun w => str_contains lower (to_lowercase w))).isSome := by
  induction ws with
  | nil => simp [detect_wake_words_scan]
  | cons w rest ih =>
    simp only [detect_wake_words_scan, List.find?_cons]
    by_cases h : str_contains lower (to_lowercase w) <;> simp [h, ih]

/-- C4.  `detect_wake_words` returns a positive detection exactly when
some configured wake word, lowercased, occurs in the lowercased
transcript; the scan equals `List.find?` over the wake-word list, i.e.
the words are tested in declaration order and the first match wins,
short-circuiting the scan. -/
theorem detect_wake_words_spec (t : List Char) (ws : List (List Char)) :
    (detect_wake_words t ws = true ↔
      ∃ w ∈ ws, str_contains (to_lowercase t) (to_lowercase w) = true) ∧
    detect_wake_words t ws
      = (ws.find? (fun w => str_contains (to_lowercase t) (to_lowercase w))).isSome := by
  refine ⟨?_, ?_⟩
  · rw [detect_wake_words, detect_scan_eq_find?]
    simp [List.find?_isSome]
  · exact detect_scan_eq_find? (to_lowercase t) ws

/-- C6.  Evaluation of the legacy wake-word detector on the spec's test
vector: transcript "hello wake word test", wake words ["Wake", "Test"].
The detection is positive with `start_idx = 6`, the offset of "wake",
but `end_idx` is 4 — the matched phrase's length — not the offset 10 at
which the match ends, contradicting the field's own documentation
("The end index in the transcript of the detected word"). -/
theorem detect_wake_words_legacy_end_idx :
    detect_wake_words_legacy ["Wake".toList, "Test".toList] true
        "hello wake word test".toList = ⟨true, 6, 4⟩ ∧
    (detect_wake_words_legacy ["Wake".toList, "Test".toList] true
        "hello wake word test".toList).end_idx ≠
      (detect_wake_words_legacy ["Wake".toList, "Test".toList] true
        "hello wake word test".toList).start_idx + "Wake".toList.length := by
  constructor
  · rfl
  · intro h
    simp only [show detect_wake_words_legacy ["Wake".toList, "Test".toList] true
        "hello wake word test".toList = ⟨true, 6, 4⟩ from rfl] at h
    omega

/-- C5.  Evaluation of the per-window path of `process` /
`transcribe_audio_data` (src/native/src/api.rs) on a window whose
transcript "hello world" contains no configured wake word ("hey"): the
wake-word check is negative, yet the window is transcribed and its text
handed to `send_text_to_dart`, unlike the gated path of
`listen_low_power_mode`, which delivers nothing for the same window. -/
theorem transcribe_audio_data_ungated :
    (transcribe_audio_data "hello world".toList ["hey".toList]).1 = false ∧
    process_window "hello world".toList ["hey".toList]
      = some "hello world".toList ∧
    low_power_window "hello world".toList ["hey".toList] = none := by
  refine ⟨by decide, rfl, by decide⟩

/-- C7.  Evaluation of the realtime input callback
`input_stream_listener` when the bounded channel is full or closed: the
`try_send` error is logged by the `map_err` closure and the trailing
`.unwrap()` then panics inside the realtime callback, instead of
dropping the frame and returning normally; only a successful `try_send`
returns. -/
theorem input_stream_listener_panics_when_full :
    input_stream_listener .full [0] = .panicked ∧
    input_stream_listener .closed [0] = .panicked ∧
    input_stream_listener .ok [0] = .returned true := by
  decide

/-- `Iterator::sum` is a left fold from the accumulator; over exact
rationals it computes the list sum. -/
theorem foldl_add_eq_sum (l : List ℚ) (a : ℚ) : l.foldl (· + ·) a = a + l.sum := by
  induction l generalizing a with
  | nil => simp
  | cons x xs ih => simp [List.foldl_cons, ih, add_assoc]

/-- Frames of equal positive length are recovered by `chunks_pos` from
their concatenation. -/
theorem chunks_pos_flatten (m : Nat) (frames : List (List ℚ))
    (h : ∀ f ∈ frames, f.length = m + 1) :
    chunks_pos m frames.flatten = frames := by
  induction frames with
  | nil => simp [chunks_pos]
  | cons f fs ih =>
    have hf : f.length = m + 1 := h f (by simp)
    match f, hf with
    | x :: xs, hf =>
      have hfs : ∀ g ∈ fs, g.length = m + 1 :=
        fun g hg => h g (List.mem_cons_of_mem _ hg)
      simp only [List.flatten_cons, List.cons_append]
      rw [chunks_pos]
      rw [← List.cons_append, List.take_left' hf, List.drop_left' hf, ih hfs]

/-- C9.  Downmix correctness for `stereo_to_mono`: with channel count 1
the input passes through unchanged; with channel count `N > 1`, an input
made of frames of `N` samples maps to one output sample per frame, the
arithmetic mean of that frame's `N` channel values. -/
theorem stereo_to_mono_spec :
    (∀ s : List ℚ, stereo_to_mono s 1 = s) ∧
    (∀ (N : Nat) (frames : List (List ℚ)), 1 < N →
      (∀ f ∈ frames, f.length = N) →
      stereo_to_mono frames.flatten N
        = frames.map (fun f => f.sum / (N : ℚ))) := by
  constructor
  · intro s; simp [stereo_to_mono]
  · intro N frames hN hf
    have hN1 : N ≠ 1 := by omega
    have hm : N - 1 + 1 = N := by omega
    have hf' : ∀ f ∈ frames, f.length = (N - 1) + 1 := by
      intro f hfm; rw [hm]; exact hf f hfm
    simp only [stereo_to_mono, if_neg hN1, chunks_pos_flatten (N - 1) frames hf']
    refine List.map_congr_left (fun f _ => ?_)
    rw [foldl_add_eq_sum, zero_add]

/-- Witness for C9: a concrete 2-channel stream `[(1,3), (2,4)]` downmixes
to `[2, 3]`, and mono passes through. -/
theorem stereo_to_mono_spec_witness :
    stereo_to_mono ([1, 3] ++ [2, 4] : List ℚ) 2 = [(1 + 3) / 2, (2 + 4) / 2] ∧
    stereo_to_mono [5, 7] 1 = [5, 7] := by
  constructor
  · have h := stereo_to_mono_spec.2 2 [[1, 3], [2, 4]] (by norm_num)
      (by intro f hf; simp at hf; rcases hf with h | h <;> simp [h])
    simp only [List.flatten] at h
    rw [show ([1, 3] ++ ([2, 4] ++ [])) = ([1, 3] ++ [2, 4] : List ℚ) by simp] at h
    rw [h]
    norm_num [List.sum_cons]
  · exact stereo_to_mono_spec.1 [5, 7]

set_option maxRecDepth 40000 in
/-- C1.  Evaluation of the accumulation loop at window size
`desired_num_samples 0 = 200` on the chunk sequence
`[replicate 199 0, [1, 2]]`: on the second chunk the buffer reaches
exactly 200 samples, but the loop passes the raw incoming chunk `[1, 2]`
to the callback (length 2, not 200), then discards the 200 accumulated
samples and retains `[2]`; the emitted windows followed by the remainder
do not re-concatenate to the input stream. -/
theorem process_audio_run_drops_samples :
    process_audio_run (desired_num_samples 0) [List.replicate 199 0, [1, 2]]
        = some ([2], [[1, 2]]) ∧
    ([1, 2] : List Nat).length ≠ desired_num_samples 0 ∧
    [[1, 2]].flatten ++ [2] ≠ List.replicate 199 (0 : Nat) ++ [1, 2] := by
  refine ⟨by decide, by decide, ?_⟩
  intro h
  have := congrArg List.length h
  simp at this

-- ==================================================================
--  Claim theorems (FFI boundary)
-- ==================================================================

/-- C2.  Evaluation of `send_message_to_rust` on degenerate inputs: for a
zero-length (hence malformed) `LoadModel` buffer the decode fails, the
`map_err` closure builds the Error response (storing `ResponseType::Error`
and the length out-parameter) but its `return` only leaves the closure, so
the trailing `.unwrap()` panics the process instead of returning the Error
response; for a null message pointer the function returns a null pointer
without producing any Error response.  The environment is irrelevant:
both paths are decided before any state operation runs. -/
theorem send_message_malformed_panics :
    send_message_to_rust triv_env 0 (some []) false false
        = .panicked (some 2) true ∧
    send_message_to_rust triv_env 0 none false false = .nullReturn := by
  decide

/-- The exact bincode-encoded length of each response variant. -/
theorem enc_resp_length (r : Resp) :
    (enc_resp r).length =
      match r with
      | .text s => 8 + s.length
      | .wakeWord _ => 17
      | .error s => 8 + s.length := by
  cases r with
  | text s => simp [enc_resp, enc_string, enc_u64, le_bytes_length]
  | wakeWord d => simp [enc_resp, enc_bool, enc_u64, le_bytes_length]
  | error s => simp [enc_resp, enc_string, enc_u64, le_bytes_length]

/-- C8 (amended).  `serialize` allocates a buffer of `byte_len` bytes and
stores the actual bincode-written length into the out-parameter; the
buffer is always large enough, but the allocated size strictly exceeds
the reported written size for every response (by 16 bytes for
`TextResponse`/`ErrorResponse`, 31 for `WakeWordResponse`), so the
pointer/length pair handed to the host describes a strict prefix of the
allocation, never the entire allocation. -/
theorem serialize_overallocates (r : Resp) :
    (serialize r).2 = (enc_resp r).length ∧
    (serialize r).1.length = byte_len r ∧
    (serialize r).2 < (serialize r).1.length := by
  have henc := enc_resp_length r
  have hle : (enc_resp r).length < byte_len r := by
    cases r <;> simp [byte_len, size_of_string, size_of_wake_word_detection] at henc ⊢ <;> omega
  refine ⟨rfl, ?_, ?_⟩
  · simp only [serialize, List.length_append, List.length_replicate]
    omega
  · simp only [serialize, List.length_append, List.length_replicate]
    omega

/-- Counterexample to C8 as stated: for `TextResponse("")` the allocation
is 24 bytes while the reported written length is 8, so the allocated size
does not equal the reported size. -/
theorem serialize_alloc_ne_written :
    (serialize (.text [])).1.length = 24 ∧ (serialize (.text [])).2 = 8 ∧
    (serialize (.text [])).1.length ≠ (serialize (.text [])).2 := by
  decide

/-- C10 (amended).  When the message pointer and both out-parameter
pointers are non-null, every `msg_type` byte outside `0..=5` drives
`MessageType::from` into its `unreachable!` branch: the process panics
before any decoding, no response buffer is returned, and neither
out-parameter is written, whatever the state environment. -/
theorem send_message_unknown_type_panics (env : StateEnv) (t : Nat) (bs : Bytes)
    (h : 6 ≤ t) :
    send_message_to_rust env t (some bs) false false = .panicked none false := by
  simp [send_message_to_rust, h]

/-- Witness for C10: `msg_type = 6` with an empty (non-null) buffer. -/
theorem send_message_unknown_type_panics_witness :
    6 ≤ 6 ∧ send_message_to_rust triv_env 6 (some []) false false
        = .panicked none false :=
  ⟨by decide, send_message_unknown_type_panics triv_env 6 [] (by decide)⟩

/-- Counterexample to C10 as stated: with `msg_type = 6` and a null
message pointer the validation guard returns a null pointer before the
`MessageType` conversion runs, so the call does not panic. -/
theorem send_message_unknown_type_null_no_panic :
    (send_message_to_rust triv_env 6 none false false).isPanicked = false := by
  decide

end Virgil
